import Mathlib

/-!
Verification of the Markdown conversion core of Tiny-Blog (`bear.py`).

The definitions below are a shallow embedding of the three core functions
`parse_markdown`, `escape_html` and `process_inline`.  Python's `re.sub`
calls are embedded as explicit left-to-right scanners over `List Char`:
at each position the scanner attempts the pattern; on success it emits the
replacement and resumes after the match, on failure it emits one character
and advances.  Every character class in the source patterns excludes its
own closing delimiter, so greedy matching is deterministic and the
scanners below implement exactly the regex semantics.  Recursion is by a
fuel argument initialised to the input length; every step consumes at
least one character, so the fuel never runs out.
-/

/-- The backtick character (source patterns delimit inline code with it). -/
def btChar : Char := Char.ofNat 96

/-- Embedding of Python `text.replace(old, new)` (all non-overlapping
occurrences, left to right); `old` is nonempty at every call site. -/
def replaceListAux (pat repl : List Char) : Nat → List Char → List Char
  | 0, l => l
  | _ + 1, [] => []
  | fuel + 1, c :: cs =>
    if pat.isPrefixOf (c :: cs) then
      repl ++ replaceListAux pat repl fuel ((c :: cs).drop pat.length)
    else
      c :: replaceListAux pat repl fuel cs

/-- String-level wrapper for `replaceListAux`. -/
def pyReplace (s pat repl : String) : String :=
  String.mk (replaceListAux pat.data repl.data s.data.length s.data)

/-- Embedding of `escape_html` (bear.py): ampersand first, then the two
angle brackets. -/
def escape_html (text : String) : String :=
  pyReplace (pyReplace (pyReplace text "&" "&amp;") "<" "&lt;") ">" "&gt;"

/-- Stage 1 of `process_inline`:
`re.sub(r'!\[([^\]]*)\]\(([^)]+)\)', r'<img src="\2" alt="\1">', text)`. -/
def subImageAux : Nat → List Char → List Char
  | 0, l => l
  | _ + 1, [] => []
  | fuel + 1, c :: cs =>
    if c = '!' then
      match cs with
      | '[' :: r1 =>
        let alt := r1.takeWhile (fun x => x != ']')
        match r1.dropWhile (fun x => x != ']') with
        | ']' :: '(' :: r3 =>
          let url := r3.takeWhile (fun x => x != ')')
          match url, r3.dropWhile (fun x => x != ')') with
          | _ :: _, ')' :: r5 =>
            ("<img src=\"".data) ++ url ++ ("\" alt=\"".data) ++ alt ++ ("\">".data)
              ++ subImageAux fuel r5
          | _, _ => c :: subImageAux fuel cs
        | _ => c :: subImageAux fuel cs
      | _ => c :: subImageAux fuel cs
    else c :: subImageAux fuel cs

/-- Stage 2 of `process_inline`:
`re.sub(r'\[([^\]]+)\]\(([^)]+)\)', r'<a href="\2">\1</a>', text)`. -/
def subLinkAux : Nat → List Char → List Char
  | 0, l => l
  | _ + 1, [] => []
  | fuel + 1, c :: cs =>
    if c = '[' then
      let txt := cs.takeWhile (fun x => x != ']')
      match txt, cs.dropWhile (fun x => x != ']') with
      | _ :: _, ']' :: '(' :: r3 =>
        let url := r3.takeWhile (fun x => x != ')')
        match url, r3.dropWhile (fun x => x != ')') with
        | _ :: _, ')' :: r5 =>
          ("<a href=\"".data) ++ url ++ ("\">".data) ++ txt ++ ("</a>".data)
            ++ subLinkAux fuel r5
        | _, _ => c :: subLinkAux fuel cs
      | _, _ => c :: subLinkAux fuel cs
    else c :: subLinkAux fuel cs

/-- Stage 3 of `process_inline`: inline code,
`re.sub` with pattern backtick `([^`]+)` backtick. -/
def subCodeAux : Nat → List Char → List Char
  | 0, l => l
  | _ + 1, [] => []
  | fuel + 1, c :: cs =>
    if c = btChar then
      let body := cs.takeWhile (fun x => x != btChar)
      match body, cs.dropWhile (fun x => x != btChar) with
      | _ :: _, _ :: r3 =>
        ("<code>".data) ++ body ++ ("</code>".data) ++ subCodeAux fuel r3
      | _, _ => c :: subCodeAux fuel cs
    else c :: subCodeAux fuel cs

/-- Stage 4 of `process_inline`:
`re.sub(r'==([^=]+)==', r'<mark>\1</mark>', text)`. -/
def subMarkAux : Nat → List Char → List Char
  | 0, l => l
  | _ + 1, [] => []
  | fuel + 1, c :: cs =>
    if c = '=' then
      match cs with
      | '=' :: r1 =>
        let body := r1.takeWhile (fun x => x != '=')
        match body, r1.dropWhile (fun x => x != '=') with
        | _ :: _, '=' :: '=' :: r4 =>
          ("<mark>".data) ++ body ++ ("</mark>".data) ++ subMarkAux fuel r4
        | _, _ => c :: subMarkAux fuel cs
      | _ => c :: subMarkAux fuel cs
    else c :: subMarkAux fuel cs

/-- Stage 5 of `process_inline`:
`re.sub(r'\*\*([^*]+)\*\*', r'<strong>\1</strong>', text)`. -/
def subBoldAux : Nat → List Char → List Char
  | 0, l => l
  | _ + 1, [] => []
  | fuel + 1, c :: cs =>
    if c = '*' then
      match cs with
      | '*' :: r1 =>
        let body := r1.takeWhile (fun x => x != '*')
        match body, r1.dropWhile (fun x => x != '*') with
        | _ :: _, '*' :: '*' :: r4 =>
          ("<strong>".data) ++ body ++ ("</strong>".data) ++ subBoldAux fuel r4
        | _, _ => c :: subBoldAux fuel cs
      | _ => c :: subBoldAux fuel cs
    else c :: subBoldAux fuel cs

/-- Stage 6 of `process_inline`:
`re.sub(r'__([^_]+)__', r'<strong>\1</strong>', text)`. -/
def subBoldUAux : Nat → List Char → List Char
  | 0, l => l
  | _ + 1, [] => []
  | fuel + 1, c :: cs =>
    if c = '_' then
      match cs with
      | '_' :: r1 =>
        let body := r1.takeWhile (fun x => x != '_')
        match body, r1.dropWhile (fun x => x != '_') with
        | _ :: _, '_' :: '_' :: r4 =>
          ("<strong>".data) ++ body ++ ("</strong>".data) ++ subBoldUAux fuel r4
        | _, _ => c :: subBoldUAux fuel cs
      | _ => c :: subBoldUAux fuel cs
    else c :: subBoldUAux fuel cs

/-- Stage 7 of `process_inline`:
`re.sub(r'\*([^*]+)\*', r'<em>\1</em>', text)`. -/
def subEmAux : Nat → List Char → List Char
  | 0, l => l
  | _ + 1, [] => []
  | fuel + 1, c :: cs =>
    if c = '*' then
      let body := cs.takeWhile (fun x => x != '*')
      match body, cs.dropWhile (fun x => x != '*') with
      | _ :: _, _ :: r3 =>
        ("<em>".data) ++ body ++ ("</em>".data) ++ subEmAux fuel r3
      | _, _ => c :: subEmAux fuel cs
    else c :: subEmAux fuel cs

/-- Whether an optional character is an ASCII letter (`[a-zA-Z]`). -/
def optIsLetter : Option Char → Bool
  | some c => c.isAlpha
  | none => false

/-- Whether a list of characters begins with an ASCII letter. -/
def headIsLetter : List Char → Bool
  | c :: _ => c.isAlpha
  | [] => false

/-- Stage 8 of `process_inline`:
`re.sub` with pattern `(?<![a-zA-Z])_([^_]+)_(?![a-zA-Z])`.  The `prev`
argument carries the previous character of the original text (lookbehind);
the lookahead examines the text following the match without consuming it. -/
def subEmUAux : Nat → Option Char → List Char → List Char
  | 0, _, l => l
  | _ + 1, _, [] => []
  | fuel + 1, prev, c :: cs =>
    if c = '_' then
      if optIsLetter prev then c :: subEmUAux fuel (some c) cs
      else
        let body := cs.takeWhile (fun x => x != '_')
        match body, cs.dropWhile (fun x => x != '_') with
        | _ :: _, _ :: r3 =>
          if headIsLetter r3 then c :: subEmUAux fuel (some c) cs
          else ("<em>".data) ++ body ++ ("</em>".data) ++ subEmUAux fuel (some '_') r3
        | _, _ => c :: subEmUAux fuel (some c) cs
    else c :: subEmUAux fuel (some c) cs

/-- The eight `re.sub` stages at list level, fuelled by the input length. -/
def pipeImage (l : List Char) : List Char := subImageAux l.length l

/-- Second stage wrapper (links). -/
def pipeLink (l : List Char) : List Char := subLinkAux l.length l

/-- Third stage wrapper (inline code). -/
def pipeCode (l : List Char) : List Char := subCodeAux l.length l

/-- Fourth stage wrapper (highlight). -/
def pipeMark (l : List Char) : List Char := subMarkAux l.length l

/-- Fifth stage wrapper (asterisk bold). -/
def pipeBold (l : List Char) : List Char := subBoldAux l.length l

/-- Sixth stage wrapper (underscore bold). -/
def pipeBoldU (l : List Char) : List Char := subBoldUAux l.length l

/-- Seventh stage wrapper (asterisk italic). -/
def pipeEm (l : List Char) : List Char := subEmAux l.length l

/-- Eighth stage wrapper (underscore italic, lookaround variant);
at the start of the text there is no previous character. -/
def pipeEmU (l : List Char) : List Char := subEmUAux l.length none l

/-- Embedding of `process_inline` (bear.py): the eight substitutions in
source order — images, links, inline code, highlight, the two bold forms,
then the two italic forms. -/
def process_inline (text : String) : String :=
  String.mk (pipeEmU (pipeEm (pipeBoldU (pipeBold (pipeMark (pipeCode
    (pipeLink (pipeImage text.data))))))))

/-- Python `line.startswith(pre)`. -/
def startswith (line pre : String) : Bool := pre.data.isPrefixOf line.data

/-- Python `s[n:]` for a string (character-based slicing). -/
def pyDrop (s : String) (n : Nat) : String := String.mk (s.data.drop n)

/-- The ASCII whitespace characters removed by Python `str.strip()`. -/
def isPySpace (c : Char) : Bool :=
  c == ' ' || c == '\t' || c == '\n' || c == '\r' || c == '\x0b' || c == '\x0c'

/-- Python `line.strip()`. -/
def strip (s : String) : String :=
  String.mk (((s.data.dropWhile isPySpace).reverse.dropWhile isPySpace).reverse)

/-- Python `sep.join(parts)`. -/
def joinSep (sep : String) : List String → String
  | [] => ""
  | [s] => s
  | s :: rest => s ++ sep ++ joinSep sep rest

/-- Embedding of `re.match(r'^(\d+)\. (.+)$', line)`: on success returns
the second capture group (the item text after the numeric prefix). -/
def olMatch (line : String) : Option String :=
  match line.data.takeWhile Char.isDigit, line.data.dropWhile Char.isDigit with
  | _ :: _, '.' :: ' ' :: r => if r.isEmpty then none else some (String.mk r)
  | _, _ => none

/-- Embedding of `re.match(r'^\d+\. ', line)` (the ordered-list
continuation test used when deciding whether to close an open `<ol>`). -/
def olCloseMatch (line : String) : Bool :=
  match line.data.takeWhile Char.isDigit, line.data.dropWhile Char.isDigit with
  | _ :: _, '.' :: ' ' :: _ => true
  | _, _ => false

/-- The mutable state of the `parse_markdown` loop: the emitted HTML
fragments and the five flags/accumulator of the source. -/
structure MDState where
  htmlLines : List String
  inCode : Bool
  inUl : Bool
  inOl : Bool
  inBq : Bool
  bqLines : List String
deriving DecidableEq

/-- The state at the top of `parse_markdown`. -/
def initState : MDState :=
  { htmlLines := [], inCode := false, inUl := false, inOl := false, inBq := false, bqLines := [] }

/-- The flushed blockquote element: accumulated fragments joined by a
single space. -/
def bqFlushFragment (st : MDState) : String :=
  "<blockquote>" ++ joinSep " " st.bqLines ++ "</blockquote>"

/-- First `# Close lists if needed` check of the loop body: close an open
`<ul>` when the line is not a bullet item. -/
def closeUl (st : MDState) (line : String) : MDState :=
  if st.inUl && !(startswith line "- " || startswith line "* ") then
    { st with htmlLines := st.htmlLines ++ ["</ul>"], inUl := false }
  else st

/-- Second `# Close lists if needed` check: close an open `<ol>` when the
line does not continue a numbered list. -/
def closeOl (st : MDState) (line : String) : MDState :=
  if st.inOl && !(olCloseMatch line) then
    { st with htmlLines := st.htmlLines ++ ["</ol>"], inOl := false }
  else st

/-- Both list-closing checks, in source order. -/
def closeListsStep (st : MDState) (line : String) : MDState :=
  closeOl (closeUl st line) line

/-- The tail of the loop body after the blockquote handling: headers,
horizontal rule, bullet list, numbered list, blank line, paragraph. -/
def blockStep (st : MDState) (line : String) : MDState :=
  if startswith line "#### " then
    { st with htmlLines := st.htmlLines ++ ["<h4>" ++ process_inline (pyDrop line 5) ++ "</h4>"] }
  else if startswith line "### " then
    { st with htmlLines := st.htmlLines ++ ["<h3>" ++ process_inline (pyDrop line 4) ++ "</h3>"] }
  else if startswith line "## " then
    { st with htmlLines := st.htmlLines ++ ["<h2>" ++ process_inline (pyDrop line 3) ++ "</h2>"] }
  else if startswith line "# " then
    { st with htmlLines := st.htmlLines ++ ["<h1>" ++ process_inline (pyDrop line 2) ++ "</h1>"] }
  else if strip line == "---" || strip line == "***" || strip line == "___" then
    { st with htmlLines := st.htmlLines ++ ["<hr>"] }
  else if startswith line "- " || startswith line "* " then
    if st.inUl then
      { st with htmlLines := st.htmlLines ++ ["<li>" ++ process_inline (pyDrop line 2) ++ "</li>"] }
    else
      { st with
        htmlLines := st.htmlLines ++ ["<ul>", "<li>" ++ process_inline (pyDrop line 2) ++ "</li>"],
        inUl := true }
  else
    match olMatch line with
    | some rest =>
      if st.inOl then
        { st with htmlLines := st.htmlLines ++ ["<li>" ++ process_inline rest ++ "</li>"] }
      else
        { st with
          htmlLines := st.htmlLines ++ ["<ol>", "<li>" ++ process_inline rest ++ "</li>"],
          inOl := true }
    | none =>
      if strip line == "" then { st with htmlLines := st.htmlLines ++ [""] }
      else { st with htmlLines := st.htmlLines ++ ["<p>" ++ process_inline line ++ "</p>"] }

/-- One iteration of the `for line in lines` loop of `parse_markdown`. -/
def processLine (st : MDState) (line : String) : MDState :=
  if startswith line "```" then
    if st.inCode then { st with htmlLines := st.htmlLines ++ ["</code></pre>"], inCode := false }
    else { st with htmlLines := st.htmlLines ++ ["<pre><code>"], inCode := true }
  else if st.inCode then
    { st with htmlLines := st.htmlLines ++ [escape_html line] }
  else
    let st2 := closeListsStep st line
    if startswith line "> " then
      { st2 with
        inBq := true,
        bqLines := (if st2.inBq then st2.bqLines else []) ++ [process_inline (pyDrop line 2)] }
    else
      let st3 :=
        if st2.inBq then
          { st2 with
            htmlLines := st2.htmlLines ++ [bqFlushFragment st2],
            inBq := false,
            bqLines := [] }
        else st2
      blockStep st3 line

/-- The `# Close open elements` epilogue of `parse_markdown`. -/
def closeOpen (st : MDState) : List String :=
  let h1 := if st.inUl then st.htmlLines ++ ["</ul>"] else st.htmlLines
  let h2 := if st.inOl then h1 ++ ["</ol>"] else h1
  if st.inBq then h2 ++ [bqFlushFragment st] else h2

/-- Embedding of `parse_markdown` (bear.py) over the document's line
sequence (the source receives the text and first splits it on newlines;
see `parse_markdown_text`). -/
def parse_markdown (lines : List String) : String :=
  joinSep "\n" (closeOpen (lines.foldl processLine initState))

/-- The source entry point: split on newlines, then run the loop. -/
def parse_markdown_text (text : String) : String :=
  parse_markdown (text.splitOn "\n")

/-! Helper lemmas: each substitution stage is the identity on text that
contains no occurrence of the character that starts its pattern. -/

theorem subImageAux_id (fuel : Nat) (l : List Char) (h : ∀ c ∈ l, c ≠ '!') :
    subImageAux fuel l = l := by
  induction fuel generalizing l with
  | zero => rfl
  | succ n ih =>
    cases l with
    | nil => rfl
    | cons c cs =>
      have hc : ¬ c = '!' := h c (List.mem_cons_self c cs)
      rw [subImageAux.eq_def]
      simp only [hc, if_false]
      exact congrArg (c :: ·) (ih cs (fun x hx => h x (List.mem_cons_of_mem c hx)))

theorem subLinkAux_id (fuel : Nat) (l : List Char) (h : ∀ c ∈ l, c ≠ '[') :
    subLinkAux fuel l = l := by
  induction fuel generalizing l with
  | zero => rfl
  | succ n ih =>
    cases l with
    | nil => rfl
    | cons c cs =>
      have hc : ¬ c = '[' := h c (List.mem_cons_self c cs)
      rw [subLinkAux.eq_def]
      simp only [hc, if_false]
      exact congrArg (c :: ·) (ih cs (fun x hx => h x (List.mem_cons_of_mem c hx)))

theorem subCodeAux_id (fuel : Nat) (l : List Char) (h : ∀ c ∈ l, c ≠ btChar) :
    subCodeAux fuel l = l := by
  induction fuel generalizing l with
  | zero => rfl
  | succ n ih =>
    cases l with
    | nil => rfl
    | cons c cs =>
      have hc : ¬ c = btChar := h c (List.mem_cons_self c cs)
      rw [subCodeAux.eq_def]
      simp only [hc, if_false]
      exact congrArg (c :: ·) (ih cs (fun x hx => h x (List.mem_cons_of_mem c hx)))

theorem subMarkAux_id (fuel : Nat) (l : List Char) (h : ∀ c ∈ l, c ≠ '=') :
    subMarkAux fuel l = l := by
  induction fuel generalizing l with
  | zero => rfl
  | succ n ih =>
    cases l with
    | nil => rfl
    | cons c cs =>
      have hc : ¬ c = '=' := h c (List.mem_cons_self c cs)
      rw [subMarkAux.eq_def]
      simp only [hc, if_false]
      exact congrArg (c :: ·) (ih cs (fun x hx => h x (List.mem_cons_of_mem c hx)))

theorem subBoldAux_id (fuel : Nat) (l : List Char) (h : ∀ c ∈ l, c ≠ '*') :
    subBoldAux fuel l = l := by
  induction fuel generalizing l with
  | zero => rfl
  | succ n ih =>
    cases l with
    | nil => rfl
    | cons c cs =>
      have hc : ¬ c = '*' := h c (List.mem_cons_self c cs)
      rw [subBoldAux.eq_def]
      simp only [hc, if_false]
      exact congrArg (c :: ·) (ih cs (fun x hx => h x (List.mem_cons_of_mem c hx)))

theorem subBoldUAux_id (fuel : Nat) (l : List Char) (h : ∀ c ∈ l, c ≠ '_') :
    subBoldUAux fuel l = l := by
  induction fuel generalizing l with
  | zero => rfl
  | succ n ih =>
    cases l with
    | nil => rfl
    | cons c cs =>
      have hc : ¬ c = '_' := h c (List.mem_cons_self c cs)
      rw [subBoldUAux.eq_def]
      simp only [hc, if_false]
      exact congrArg (c :: ·) (ih cs (fun x hx => h x (List.mem_cons_of_mem c hx)))

theorem subEmAux_id (fuel : Nat) (l : List Char) (h : ∀ c ∈ l, c ≠ '*') :
    subEmAux fuel l = l := by
  induction fuel generalizing l with
  | zero => rfl
  | succ n ih =>
    cases l with
    | nil => rfl
    | cons c cs =>
      have hc : ¬ c = '*' := h c (List.mem_cons_self c cs)
      rw [subEmAux.eq_def]
      simp only [hc, if_false]
      exact congrArg (c :: ·) (ih cs (fun x hx => h x (List.mem_cons_of_mem c hx)))

theorem subEmUAux_id (fuel : Nat) (prev : Option Char) (l : List Char)
    (h : ∀ c ∈ l, c ≠ '_') : subEmUAux fuel prev l = l := by
  induction fuel generalizing prev l with
  | zero => rfl
  | succ n ih =>
    cases l with
    | nil => rfl
    | cons c cs =>
      have hc : ¬ c = '_' := h c (List.mem_cons_self c cs)
      rw [subEmUAux.eq_def]
      simp only [hc, if_false]
      exact congrArg (c :: ·) (ih (some c) cs (fun x hx => h x (List.mem_cons_of_mem c hx)))

theorem pipeImage_id (l : List Char) (h : ∀ c ∈ l, c ≠ '!') : pipeImage l = l :=
  subImageAux_id l.length l h

theorem pipeLink_id (l : List Char) (h : ∀ c ∈ l, c ≠ '[') : pipeLink l = l :=
  subLinkAux_id l.length l h

theorem pipeCode_id (l : List Char) (h : ∀ c ∈ l, c ≠ btChar) : pipeCode l = l :=
  subCodeAux_id l.length l h

theorem pipeMark_id (l : List Char) (h : ∀ c ∈ l, c ≠ '=') : pipeMark l = l :=
  subMarkAux_id l.length l h

theorem pipeBold_id (l : List Char) (h : ∀ c ∈ l, c ≠ '*') : pipeBold l = l :=
  subBoldAux_id l.length l h

theorem pipeBoldU_id (l : List Char) (h : ∀ c ∈ l, c ≠ '_') : pipeBoldU l = l :=
  subBoldUAux_id l.length l h

theorem pipeEm_id (l : List Char) (h : ∀ c ∈ l, c ≠ '*') : pipeEm l = l :=
  subEmAux_id l.length l h

theorem pipeEmU_id (l : List Char) (h : ∀ c ∈ l, c ≠ '_') : pipeEmU l = l :=
  subEmUAux_id l.length none l h

/-- Claim C9: `renderInline` is the identity on unstyled text — on every
line containing none of the special delimiter characters of the inline
rules (exclamation mark, brackets, parentheses, equals sign, asterisk,
underscore, backtick), `process_inline` returns the line unchanged. -/
theorem C9_inline_identity_on_plain_text (line : String)
    (h : ∀ c ∈ line.data, c ∉ ['!', '[', ']', '(', ')', '=', '*', '_', btChar]) :
    process_inline line = line := by
  have hgen : ∀ d : Char, d ∈ ['!', '[', ']', '(', ')', '=', '*', '_', btChar] →
      ∀ c ∈ line.data, c ≠ d := by
    intro d hd c hc he
    exact h c hc (by rw [he]; exact hd)
  unfold process_inline
  rw [pipeImage_id _ (hgen '!' (by decide)), pipeLink_id _ (hgen '[' (by decide)),
      pipeCode_id _ (hgen btChar (by decide)), pipeMark_id _ (hgen '=' (by decide)),
      pipeBold_id _ (hgen '*' (by decide)), pipeBoldU_id _ (hgen '_' (by decide)),
      pipeEm_id _ (hgen '*' (by decide)), pipeEmU_id _ (hgen '_' (by decide))]

/-- Witness for C9 at the concrete plain-text line `"hello world"`. -/
theorem C9_witness :
    (∀ c ∈ ("hello world" : String).data,
        c ∉ ['!', '[', ']', '(', ')', '=', '*', '_', btChar]) ∧
    process_inline "hello world" = "hello world" :=
  ⟨by decide, C9_inline_identity_on_plain_text "hello world" (by decide)⟩

/-- Counterexample for claim C1: on the nested example the code does not
produce `<strong>a <em>b</em> c</strong>` — the bold pattern `[^*]+`
cannot span the inner asterisks, so the bold rule never fires. -/
theorem C1_counterexample :
    process_inline "**a *b* c**" ≠ "<strong>a <em>b</em> c</strong>" := by decide

/-- Claim C1 (amended): the two flat round-trips hold, but the nested
example yields `*<em>a </em>b<em> c</em>*` — the italic rule matches
`*a *` and `* c*` and the outer double asterisks survive as text. -/
theorem C1_emphasis_roundtrip :
    process_inline "**x**" = "<strong>x</strong>" ∧
    process_inline "*x*" = "<em>x</em>" ∧
    process_inline "**a *b* c**" = "*<em>a </em>b<em> c</em>*" :=
  ⟨by decide, by decide, by decide⟩

/-- Claim C3: `parse_markdown` is a total function — it is defined on
every line sequence and returns the empty string on the empty sequence.
The embedding is a plain (exception-free) Lean function: every line falls
through to the paragraph default, so no input can fail. -/
theorem C3_total_and_empty (lines : List String) :
    (∃ html : String, parse_markdown lines = html) ∧ parse_markdown [] = "" :=
  ⟨⟨parse_markdown lines, rfl⟩, rfl⟩

/-- Claim C7: consecutive bullet items are grouped into one `<ul>` closed
before the following non-list line, and a list still open at end of
document is closed by the cleanup epilogue. -/
theorem C7_list_grouping_and_closure :
    parse_markdown ["- a", "- b", "x"] =
      "<ul>\n<li>a</li>\n<li>b</li>\n</ul>\n<p>x</p>" ∧
    parse_markdown ["- only item"] = "<ul>\n<li>only item</li>\n</ul>" :=
  ⟨by decide, by decide⟩

/-- Claim C8: image recognition runs before link recognition, so an image
becomes an `<img>` element and the output contains no `<a` fragment. -/
theorem C8_image_before_link :
    process_inline "![a](u.png)" = "<img src=\"u.png\" alt=\"a\">" ∧
    ¬ ("<a".data <:+: (process_inline "![a](u.png)").data) :=
  ⟨by decide, by decide⟩

/-- Claim C10: a line opening with five `#` characters matches none of the
four header prefixes (each requires a trailing space after at most four
`#`) and falls through to the paragraph default. -/
theorem C10_five_hashes_is_paragraph :
    parse_markdown ["##### T"] = "<p>##### T</p>" := by decide

theorem closeUl_inCode (st : MDState) (line : String) : (closeUl st line).inCode = st.inCode := by
  unfold closeUl
  split <;> rfl

theorem closeUl_inOl (st : MDState) (line : String) : (closeUl st line).inOl = st.inOl := by
  unfold closeUl
  split <;> rfl

theorem closeUl_inBq (st : MDState) (line : String) : (closeUl st line).inBq = st.inBq := by
  unfold closeUl
  split <;> rfl

theorem closeUl_bqLines (st : MDState) (line : String) : (closeUl st line).bqLines = st.bqLines := by
  unfold closeUl
  split <;> rfl

theorem closeUl_inUl (st : MDState) (line : String) :
    (closeUl st line).inUl = (st.inUl && (startswith line "- " || startswith line "* ")) := by
  unfold closeUl
  cases hu : st.inUl <;> cases hb : (startswith line "- " || startswith line "* ") <;> simp [hu, hb]

theorem closeOl_inCode (st : MDState) (line : String) : (closeOl st line).inCode = st.inCode := by
  unfold closeOl
  split <;> rfl

theorem closeOl_inUl (st : MDState) (line : String) : (closeOl st line).inUl = st.inUl := by
  unfold closeOl
  split <;> rfl

theorem closeOl_inBq (st : MDState) (line : String) : (closeOl st line).inBq = st.inBq := by
  unfold closeOl
  split <;> rfl

theorem closeOl_bqLines (st : MDState) (line : String) : (closeOl st line).bqLines = st.bqLines := by
  unfold closeOl
  split <;> rfl

theorem closeOl_inOl (st : MDState) (line : String) :
    (closeOl st line).inOl = (st.inOl && olCloseMatch line) := by
  unfold closeOl
  cases ho : st.inOl <;> cases hm : olCloseMatch line <;> simp [ho, hm]

theorem blockStep_inCode (st : MDState) (line : String) : (blockStep st line).inCode = st.inCode := by
  unfold blockStep
  repeat' split
  all_goals rfl

theorem blockStep_inBq (st : MDState) (line : String) : (blockStep st line).inBq = st.inBq := by
  unfold blockStep
  repeat' split
  all_goals rfl

theorem blockStep_bqLines (st : MDState) (line : String) : (blockStep st line).bqLines = st.bqLines := by
  unfold blockStep
  repeat' split
  all_goals rfl

theorem processLine_inCode (st : MDState) (line : String) :
    (processLine st line).inCode = (if startswith line "```" then !st.inCode else st.inCode) := by
  unfold processLine
  cases hf : startswith line "```"
  · simp only [hf, Bool.false_eq_true, if_false]
    cases hic : st.inCode
    · simp only [hic, Bool.false_eq_true, if_false]
      split
      · show (closeListsStep st line).inCode = false
        unfold closeListsStep
        rw [closeOl_inCode, closeUl_inCode, hic]
      · rw [blockStep_inCode]
        split
        · show (closeListsStep st line).inCode = false
          unfold closeListsStep
          rw [closeOl_inCode, closeUl_inCode, hic]
        · unfold closeListsStep
          rw [closeOl_inCode, closeUl_inCode, hic]
    · simp [hic]
  · simp only [hf, if_true]
    cases hic : st.inCode <;> simp [hic]

/-- Claim C5: every line consumed inside a code fence is emitted
HTML-escaped (ampersand first, then angle brackets), exactly once:
`escape_html "&" = "&amp;"` and `escape_html "&amp;" = "&amp;amp;"`
(no double-escape collapsing), and `escape_html "<" = "&lt;"` shows the
ampersands introduced for angle brackets are not re-escaped. -/
theorem C5_code_fence_escaping :
    (∀ (st : MDState) (line : String), st.inCode = true → startswith line "```" = false →
      processLine st line = { st with htmlLines := st.htmlLines ++ [escape_html line] }) ∧
    escape_html "&" = "&amp;" ∧ escape_html "&amp;" = "&amp;amp;" ∧ escape_html "<" = "&lt;" := by
  refine ⟨?_, by decide, by decide, by decide⟩
  intro st line hc hf
  simp [processLine, hf, hc]

/-- Witness for C5 at a concrete in-fence state and the line `"<b>"`. -/
theorem C5_witness :
    ({ initState with inCode := true } : MDState).inCode = true ∧
    startswith "<b>" "```" = false ∧
    processLine { initState with inCode := true } "<b>" =
      { ({ initState with inCode := true } : MDState) with
        htmlLines := ({ initState with inCode := true } : MDState).htmlLines ++ [escape_html "<b>"] } :=
  ⟨rfl, by decide, C5_code_fence_escaping.1 { initState with inCode := true } "<b>" rfl (by decide)⟩

/-- Claim C6: consecutive blockquote lines are buffered (no output is
emitted while the `> ` prefix continues; the inline-processed remainder is
appended to the accumulator), and the two reference documents flush the
accumulator as exactly one blockquote joined by single spaces — on a
following plain line and at end of document respectively. -/
theorem C6_blockquote_buffering :
    (∀ (st : MDState) (line : String),
      st.inCode = false → st.inUl = false → st.inOl = false →
      startswith line "```" = false → startswith line "> " = true →
      processLine st line = { st with
        inBq := true,
        bqLines := (if st.inBq then st.bqLines else []) ++ [process_inline (pyDrop line 2)] }) ∧
    parse_markdown ["> line1", "> line2", "x"] =
      "<blockquote>line1 line2</blockquote>\n<p>x</p>" ∧
    parse_markdown ["> line1", "> line2"] = "<blockquote>line1 line2</blockquote>" := by
  refine ⟨?_, by decide, by decide⟩
  intro st line hc hu ho hf hb
  simp [processLine, closeListsStep, closeUl, closeOl, hf, hb, hc, hu, ho]

/-- Witness for C6 at the initial state and the line `"> hi"`. -/
theorem C6_witness :
    initState.inCode = false ∧ initState.inUl = false ∧ initState.inOl = false ∧
    startswith "> hi" "```" = false ∧ startswith "> hi" "> " = true ∧
    processLine initState "> hi" = { initState with
      inBq := true,
      bqLines := (if initState.inBq then initState.bqLines else []) ++
        [process_inline (pyDrop "> hi" 2)] } :=
  ⟨rfl, rfl, rfl, by decide, by decide,
    C6_blockquote_buffering.1 initState "> hi" rfl rfl rfl (by decide) (by decide)⟩

/-- Counterexample for claim C2: the source tests the fence boundary
with `line.startswith('```')`, so the line `"```python"`, which is not
exactly the fence marker, still toggles code-fence mode. -/
theorem C2_counterexample :
    initState.inCode = false ∧ (processLine initState "```python").inCode = true ∧
    "```python" ≠ "```" :=
  ⟨rfl, by decide, by decide⟩

/-- Claim C2 (amended): code-fence mode toggles if and only if the line
starts with the triple backtick, and such a boundary line appends exactly
the constant opening or closing code element (the Inline Transformer is
not invoked on it). -/
theorem C2_fence_toggle_amended (st : MDState) (line : String) :
    ((processLine st line).inCode = (if startswith line "```" then !st.inCode else st.inCode)) ∧
    (startswith line "```" = true →
      processLine st line = { st with
        inCode := !st.inCode,
        htmlLines := st.htmlLines ++
          [if st.inCode then "</code></pre>" else "<pre><code>"] }) := by
  refine ⟨processLine_inCode st line, ?_⟩
  intro hf
  cases hic : st.inCode <;> simp [processLine, hf, hic]

/-- Witness for C2 at the initial state and the exact fence line. -/
theorem C2_witness :
    startswith "```" "```" = true ∧
    processLine initState "```" = { initState with
      inCode := !initState.inCode,
      htmlLines := initState.htmlLines ++
        [if initState.inCode then "</code></pre>" else "<pre><code>"] } :=
  ⟨by decide, (C2_fence_toggle_amended initState "```").2 (by decide)⟩

def listModesExclusive (st : MDState) : Bool :=
  !(st.inUl && st.inOl) && !(st.inUl && st.inBq) && !(st.inOl && st.inBq)

theorem startswith_two_shape (line pre : String) (a b : Char) (hpre : pre.data = [a, b])
    (h : startswith line pre = true) : ∃ t, line.data = a :: b :: t := by
  unfold startswith at h
  rw [hpre] at h
  cases hd : line.data with
  | nil => rw [hd] at h; simp [List.isPrefixOf] at h
  | cons c cs =>
    rw [hd] at h
    cases cs with
    | nil => simp [List.isPrefixOf] at h
    | cons c2 cs2 =>
      simp [List.isPrefixOf] at h
      obtain ⟨h1, h2⟩ := h
      subst h1
      subst h2
      exact ⟨cs2, rfl⟩

theorem gtLine_facts (line : String) (h : startswith line "> " = true) :
    (startswith line "- " || startswith line "* ") = false ∧ olCloseMatch line = false := by
  obtain ⟨t, hd⟩ := startswith_two_shape line "> " '>' ' ' (by rfl) h
  refine ⟨?_, ?_⟩
  · have h1 : startswith line "- " = false := by
      unfold startswith
      rw [hd]
      rfl
    have h2 : startswith line "* " = false := by
      unfold startswith
      rw [hd]
      rfl
    rw [h1, h2]
    rfl
  · unfold olCloseMatch
    rw [hd]
    rfl

theorem bulletLine_olCloseMatch (line : String)
    (hb : (startswith line "- " || startswith line "* ") = true) :
    olCloseMatch line = false := by
  have hb2 : startswith line "- " = true ∨ startswith line "* " = true := by
    cases h1 : startswith line "- " <;> cases h2 : startswith line "* " <;> simp_all
  rcases hb2 with h | h
  · obtain ⟨t, hd⟩ := startswith_two_shape line "- " '-' ' ' (by rfl) h
    unfold olCloseMatch
    rw [hd]
    rfl
  · obtain ⟨t, hd⟩ := startswith_two_shape line "* " '*' ' ' (by rfl) h
    unfold olCloseMatch
    rw [hd]
    rfl

theorem olMatch_head_digit (line r : String) (h : olMatch line = some r) :
    ∃ c t, line.data = c :: t ∧ c.isDigit = true := by
  unfold olMatch at h
  cases hd : line.data with
  | nil => rw [hd] at h; simp at h
  | cons c t =>
    rw [hd] at h
    cases hc : c.isDigit
    · rw [List.takeWhile_cons, List.dropWhile_cons] at h
      simp [hc] at h
    · exact ⟨c, t, rfl, hc⟩

theorem olMatch_not_bullet (line r : String) (h : olMatch line = some r) :
    (startswith line "- " || startswith line "* ") = false := by
  obtain ⟨c, t, hd, hdig⟩ := olMatch_head_digit line r h
  have hne1 : ('-' == c) = false := by
    cases he : ('-' == c)
    · rfl
    · exfalso
      have hc : '-' = c := by simpa using he
      rw [← hc] at hdig
      exact absurd hdig (by decide)
  have hne2 : ('*' == c) = false := by
    cases he : ('*' == c)
    · rfl
    · exfalso
      have hc : '*' = c := by simpa using he
      rw [← hc] at hdig
      exact absurd hdig (by decide)
  have h1 : startswith line "- " = false := by
    unfold startswith
    rw [hd]
    simp [List.isPrefixOf, hne1]
  have h2 : startswith line "* " = false := by
    unfold startswith
    rw [hd]
    simp [List.isPrefixOf, hne2]
  rw [h1, h2]
  rfl

theorem closeListsStep_inUl (st : MDState) (line : String) :
    (closeListsStep st line).inUl
      = (st.inUl && (startswith line "- " || startswith line "* ")) := by
  unfold closeListsStep
  rw [closeOl_inUl, closeUl_inUl]

theorem closeListsStep_inOl (st : MDState) (line : String) :
    (closeListsStep st line).inOl = (st.inOl && olCloseMatch line) := by
  unfold closeListsStep
  rw [closeOl_inOl, closeUl_inOl]

theorem closeListsStep_inBq (st : MDState) (line : String) :
    (closeListsStep st line).inBq = st.inBq := by
  unfold closeListsStep
  rw [closeOl_inBq, closeUl_inBq]

theorem blockStep_exclusive (st : MDState) (line : String)
    (hBq : st.inBq = false)
    (hUlOl : (st.inUl && st.inOl) = false)
    (hbul : (startswith line "- " || startswith line "* ") = true → st.inOl = false)
    (hol : ∀ r, olMatch line = some r → st.inUl = false) :
    listModesExclusive (blockStep st line) = true := by
  unfold blockStep listModesExclusive
  repeat' split
  all_goals cases hu : st.inUl <;> cases ho : st.inOl <;> simp_all

theorem closeListsStep_ulol (st : MDState) (line : String)
    (hUlOl : (st.inUl && st.inOl) = false) :
    ((closeListsStep st line).inUl && (closeListsStep st line).inOl) = false := by
  rw [closeListsStep_inUl, closeListsStep_inOl]
  cases hu : st.inUl <;> cases ho : st.inOl <;> simp_all

theorem processLine_exclusive (st : MDState) (line : String)
    (h : listModesExclusive st = true) : listModesExclusive (processLine st line) = true := by
  have hUlOl : (st.inUl && st.inOl) = false := by
    unfold listModesExclusive at h
    cases hx : (st.inUl && st.inOl) <;> simp_all
  unfold processLine
  cases hf : startswith line "```"
  · simp only [hf, Bool.false_eq_true, if_false]
    cases hic : st.inCode
    · simp only [hic, Bool.false_eq_true, if_false]
      cases hgt : startswith line "> "
      · simp only [hgt, Bool.false_eq_true, if_false]
        cases hbq2 : (closeListsStep st line).inBq
        · simp only [hbq2, Bool.false_eq_true, if_false]
          apply blockStep_exclusive
          · exact hbq2
          · exact closeListsStep_ulol st line hUlOl
          · intro hb
            rw [closeListsStep_inOl, bulletLine_olCloseMatch line hb, Bool.and_false]
          · intro r hr
            rw [closeListsStep_inUl, olMatch_not_bullet line r hr, Bool.and_false]
        · simp only [hbq2, if_true]
          apply blockStep_exclusive
          · rfl
          · show ((closeListsStep st line).inUl && (closeListsStep st line).inOl) = false
            exact closeListsStep_ulol st line hUlOl
          · intro hb
            show (closeListsStep st line).inOl = false
            rw [closeListsStep_inOl, bulletLine_olCloseMatch line hb, Bool.and_false]
          · intro r hr
            show (closeListsStep st line).inUl = false
            rw [closeListsStep_inUl, olMatch_not_bullet line r hr, Bool.and_false]
      · simp only [hgt, if_true]
        have hfacts := gtLine_facts line hgt
        have h1 : (closeListsStep st line).inUl = false := by
          rw [closeListsStep_inUl, hfacts.1, Bool.and_false]
        have h2 : (closeListsStep st line).inOl = false := by
          rw [closeListsStep_inOl, hfacts.2, Bool.and_false]
        simp [listModesExclusive, h1, h2]
    · simp only [hic, if_true]
      unfold listModesExclusive at h ⊢
      exact h
  · simp only [hf, if_true]
    cases hic : st.inCode <;> simp only [hic, Bool.false_eq_true, if_false, if_true] <;>
      (unfold listModesExclusive at h ⊢) <;> exact h

theorem foldl_exclusive (lines : List String) :
    listModesExclusive (lines.foldl processLine initState) = true := by
  suffices hgen : ∀ st : MDState, listModesExclusive st = true →
      listModesExclusive (lines.foldl processLine st) = true from hgen initState rfl
  induction lines with
  | nil => intro st h; exact h
  | cons l ls ih =>
    intro st h
    exact ih (processLine st l) (processLine_exclusive st l h)

def bulletEntryLine (line : String) : Prop :=
  startswith line "```" = false ∧ startswith line "> " = false ∧
  startswith line "#### " = false ∧ startswith line "### " = false ∧
  startswith line "## " = false ∧ startswith line "# " = false ∧
  (strip line == "---") = false ∧ (strip line == "***") = false ∧ (strip line == "___") = false ∧
  startswith line "- " = true

def olEntryLine (line rest : String) : Prop :=
  startswith line "```" = false ∧ startswith line "> " = false ∧
  startswith line "#### " = false ∧ startswith line "### " = false ∧
  startswith line "## " = false ∧ startswith line "# " = false ∧
  (strip line == "---") = false ∧ (strip line == "***") = false ∧ (strip line == "___") = false ∧
  olMatch line = some rest

def bqEntryLine (line : String) : Prop :=
  startswith line "```" = false ∧ startswith line "> " = true

theorem ulToOl (st : MDState) (line rest : String)
    (hc : st.inCode = false) (hu : st.inUl = true) (ho : st.inOl = false) (hb : st.inBq = false)
    (hl : olEntryLine line rest) :
    processLine st line = { st with
      htmlLines := st.htmlLines ++ ["</ul>", "<ol>", "<li>" ++ process_inline rest ++ "</li>"],
      inUl := false,
      inOl := true } := by
  obtain ⟨h1, h2, h3, h4, h5, h6, h7, h8, h9, h10⟩ := hl
  have hnb := olMatch_not_bullet line rest h10
  have hnb1 : startswith line "- " = false := by
    cases hx : startswith line "- " <;> simp_all
  have hnb2 : startswith line "* " = false := by
    cases hx : startswith line "* " <;> simp_all
  simp [processLine, closeListsStep, closeUl, closeOl, blockStep,
    h1, h2, h3, h4, h5, h6, h7, h8, h9, h10, hnb1, hnb2, hc, hu, ho, hb]

theorem ulToBq (st : MDState) (line : String)
    (hc : st.inCode = false) (hu : st.inUl = true) (ho : st.inOl = false) (hb : st.inBq = false)
    (hl : bqEntryLine line) :
    processLine st line = { st with
      htmlLines := st.htmlLines ++ ["</ul>"],
      inUl := false,
      inBq := true,
      bqLines := [process_inline (pyDrop line 2)] } := by
  obtain ⟨h1, h2⟩ := hl
  have hfacts := gtLine_facts line h2
  have hnb1 : startswith line "- " = false := by
    have := hfacts.1
    cases hx : startswith line "- " <;> simp_all
  have hnb2 : startswith line "* " = false := by
    have := hfacts.1
    cases hx : startswith line "* " <;> simp_all
  simp [processLine, closeListsStep, closeUl, closeOl,
    h1, h2, hnb1, hnb2, hc, hu, ho, hb]

theorem olToUl (st : MDState) (line : String)
    (hc : st.inCode = false) (hu : st.inUl = false) (ho : st.inOl = true) (hb : st.inBq = false)
    (hl : bulletEntryLine line) :
    processLine st line = { st with
      htmlLines := st.htmlLines ++ ["</ol>", "<ul>", "<li>" ++ process_inline (pyDrop line 2) ++ "</li>"],
      inOl := false,
      inUl := true } := by
  obtain ⟨h1, h2, h3, h4, h5, h6, h7, h8, h9, h10⟩ := hl
  have hom : olCloseMatch line = false := by
    apply bulletLine_olCloseMatch
    rw [h10]
    rfl
  simp [processLine, closeListsStep, closeUl, closeOl, blockStep,
    h1, h2, h3, h4, h5, h6, h7, h8, h9, h10, hom, hc, hu, ho, hb]

theorem olToBq (st : MDState) (line : String)
    (hc : st.inCode = false) (hu : st.inUl = false) (ho : st.inOl = true) (hb : st.inBq = false)
    (hl : bqEntryLine line) :
    processLine st line = { st with
      htmlLines := st.htmlLines ++ ["</ol>"],
      inOl := false,
      inBq := true,
      bqLines := [process_inline (pyDrop line 2)] } := by
  obtain ⟨h1, h2⟩ := hl
  have hfacts := gtLine_facts line h2
  simp [processLine, closeListsStep, closeUl, closeOl,
    h1, h2, hfacts.2, hc, hu, ho, hb]

theorem bqToUl (st : MDState) (line : String)
    (hc : st.inCode = false) (hu : st.inUl = false) (ho : st.inOl = false) (hb : st.inBq = true)
    (hl : bulletEntryLine line) :
    processLine st line = { st with
      htmlLines := st.htmlLines ++
        [bqFlushFragment st, "<ul>", "<li>" ++ process_inline (pyDrop line 2) ++ "</li>"],
      inBq := false,
      bqLines := [],
      inUl := true } := by
  obtain ⟨h1, h2, h3, h4, h5, h6, h7, h8, h9, h10⟩ := hl
  simp [processLine, closeListsStep, closeUl, closeOl, blockStep,
    h1, h2, h3, h4, h5, h6, h7, h8, h9, h10, hc, hu, ho, hb]

theorem bqToOl (st : MDState) (line rest : String)
    (hc : st.inCode = false) (hu : st.inUl = false) (ho : st.inOl = false) (hb : st.inBq = true)
    (hl : olEntryLine line rest) :
    processLine st line = { st with
      htmlLines := st.htmlLines ++
        [bqFlushFragment st, "<ol>", "<li>" ++ process_inline rest ++ "</li>"],
      inBq := false,
      bqLines := [],
      inOl := true } := by
  obtain ⟨h1, h2, h3, h4, h5, h6, h7, h8, h9, h10⟩ := hl
  have hnb := olMatch_not_bullet line rest h10
  have hnb1 : startswith line "- " = false := by
    cases hx : startswith line "- " <;> simp_all
  have hnb2 : startswith line "* " = false := by
    cases hx : startswith line "* " <;> simp_all
  simp [processLine, closeListsStep, closeUl, closeOl, blockStep,
    h1, h2, h3, h4, h5, h6, h7, h8, h9, h10, hnb1, hnb2, hc, hu, ho, hb]

/-- Claim C4: at most one of the bullet-list, numbered-list and
blockquote modes is active at any step of any run (every intermediate
state is the fold over a prefix, itself a line list, so the first conjunct
quantifies over all reachable states), and each of the six mode switches
first emits the closing tag of the previous mode (or flushes the
blockquote accumulator) before the opening tag of the new mode. -/
theorem C4_mode_exclusivity :
    (∀ lines : List String, listModesExclusive (lines.foldl processLine initState) = true) ∧
    (∀ (st : MDState) (line rest : String), st.inCode = false → st.inUl = true →
      st.inOl = false → st.inBq = false → olEntryLine line rest →
      processLine st line = { st with
        htmlLines := st.htmlLines ++ ["</ul>", "<ol>", "<li>" ++ process_inline rest ++ "</li>"],
        inUl := false,
        inOl := true }) ∧
    (∀ (st : MDState) (line : String), st.inCode = false → st.inUl = true →
      st.inOl = false → st.inBq = false → bqEntryLine line →
      processLine st line = { st with
        htmlLines := st.htmlLines ++ ["</ul>"],
        inUl := false,
        inBq := true,
        bqLines := [process_inline (pyDrop line 2)] }) ∧
    (∀ (st : MDState) (line : String), st.inCode = false → st.inUl = false →
      st.inOl = true → st.inBq = false → bulletEntryLine line →
      processLine st line = { st with
        htmlLines := st.htmlLines ++
          ["</ol>", "<ul>", "<li>" ++ process_inline (pyDrop line 2) ++ "</li>"],
        inOl := false,
        inUl := true }) ∧
    (∀ (st : MDState) (line : String), st.inCode = false → st.inUl = false →
      st.inOl = true → st.inBq = false → bqEntryLine line →
      processLine st line = { st with
        htmlLines := st.htmlLines ++ ["</ol>"],
        inOl := false,
        inBq := true,
        bqLines := [process_inline (pyDrop line 2)] }) ∧
    (∀ (st : MDState) (line : String), st.inCode = false → st.inUl = false →
      st.inOl = false → st.inBq = true → bulletEntryLine line →
      processLine st line = { st with
        htmlLines := st.htmlLines ++
          [bqFlushFragment st, "<ul>", "<li>" ++ process_inline (pyDrop line 2) ++ "</li>"],
        inBq := false,
        bqLines := [],
        inUl := true }) ∧
    (∀ (st : MDState) (line rest : String), st.inCode = false → st.inUl = false →
      st.inOl = false → st.inBq = true → olEntryLine line rest →
      processLine st line = { st with
        htmlLines := st.htmlLines ++
          [bqFlushFragment st, "<ol>", "<li>" ++ process_inline rest ++ "</li>"],
        inBq := false,
        bqLines := [],
        inOl := true }) :=
  ⟨foldl_exclusive, ulToOl, ulToBq, olToUl, olToBq, bqToUl, bqToOl⟩

def c4WitnessState : MDState :=
  { htmlLines := [], inCode := false, inUl := true, inOl := false, inBq := false, bqLines := [] }

/-- Witness for C4: a state with an open bullet list switching to a
numbered list on the line `"1. x"`. -/
theorem C4_witness :
    c4WitnessState.inCode = false ∧ c4WitnessState.inUl = true ∧ c4WitnessState.inOl = false ∧
    c4WitnessState.inBq = false ∧ olEntryLine "1. x" "x" ∧
    processLine c4WitnessState "1. x" = { c4WitnessState with
      htmlLines := c4WitnessState.htmlLines ++
        ["</ul>", "<ol>", "<li>" ++ process_inline "x" ++ "</li>"],
      inUl := false,
      inOl := true } :=
  ⟨rfl, rfl, rfl, rfl, by unfold olEntryLine; decide,
    C4_mode_exclusivity.2.1 c4WitnessState "1. x" "x" rfl rfl rfl rfl
      (by unfold olEntryLine; decide)⟩
